import Mathlib

/-!
Verification of the gist-sync change-detection and incremental-sync engine.

The development shallowly embeds the relevant parts of the source:
  * src/types.ts      — the data model (FileHash, FileChange, FileGroup, GistMetadata, Config)
  * src/gist-manager.ts — GistManager (createMetadataFile, getGistMetadata, createGist, updateGist)
  * src/config.ts     — ConfigManager.updateGroup
  * src/watcher.ts    — FileWatcher (calculateFileHash, checkAndUpdateFileHashes,
                        checkFileChanges, handleFileChange debounce logic)

Modelling conventions:
  * The local filesystem is a static snapshot: an association list from path to
    text content, plus an association list from folder path to the recursive
    relative entry list that fs.readdirSync(folder, recursive) would return.
    A read that throws in the source corresponds to a lookup returning none.
  * The SHA-256 digest (node:crypto, external library code) is a parameter
    hash : String → String of every definition that fingerprints content; the
    source invariant that a hex digest is never the empty string becomes a
    hypothesis where needed.  File content is modelled as the decoded text,
    since no settled claim distinguishes raw bytes from their decoding.
  * The remote store (Octokit, external) is a state: an association list from
    gist id to a gist value.  JSON serialization of the metadata file is
    modelled by a content constructor (GistContent.meta); JSON.parse of a
    non-metadata file fails, matching the catch-to-null in the source.
  * Remote failure is modelled by updateGist returning Except.error when the
    gist id is absent (octokit.gists.get throwing); the source rethrows it.
  * JS object assignment obj[k] = v replaces the first binding in place or
    appends a new one; Map.set behaves identically (assocSet below).
-/

set_option maxHeartbeats 1000000

namespace GistSync

/-- Persisted fingerprint record of one tracked file (types.ts FileHash). -/
structure FileHash where
  path : String
  hash : String
  lastSync : String
deriving Repr, DecidableEq

/-- Transient changed-file value (types.ts FileChange). -/
structure FileChange where
  path : String
  content : String
deriving Repr, DecidableEq

/-- Named synchronization unit (types.ts FileGroup). -/
structure FileGroup where
  name : String
  description : Option String := none
  files : List String := []
  folders : Option (List String) := none
  gistId : Option String := none
  fileHashes : Option (List FileHash) := none
deriving Repr, DecidableEq

/-- Metadata record stored inside the remote document (types.ts GistMetadata).
The optional watchedFolders field models the optional key of the interface:
none means the key is absent from the JSON object. -/
structure GistMetadata where
  uploadDate : String
  version : String
  watchedFiles : List String
  watchedFolders : Option (List String) := none
deriving Repr, DecidableEq

/-- Persisted configuration (types.ts Config). -/
structure Config where
  githubToken : String
  groups : List FileGroup
deriving Repr, DecidableEq

/-- Static snapshot of the local filesystem.  fileContent maps a regular file
path to its text content; dirListing maps a folder path to the recursive
relative entry list returned by fs.readdirSync(folder, recursive), or is
absent when listing the folder throws. -/
structure FileSystem where
  fileContent : List (String × String)
  dirListing : List (String × List String)

/-- Model of fs.readFileSync(p, utf-8): some content, or none when it throws. -/
def FileSystem.readFile (fs : FileSystem) (p : String) : Option String :=
  (fs.fileContent.find? (fun e => e.1 == p)).map (fun e => e.2)

/-- Model of fs.readdirSync(d, recursive: true). -/
def FileSystem.readdirRec (fs : FileSystem) (d : String) : Option (List String) :=
  (fs.dirListing.find? (fun e => e.1 == d)).map (fun e => e.2)

/-- Model of fs.statSync(p).isFile(): true exactly on regular files. -/
def FileSystem.isFile (fs : FileSystem) (p : String) : Bool :=
  (fs.readFile p).isSome

/-- Characters of the last path component (model of node path.basename). -/
def takeAfterLastSlash (cs : List Char) : List Char :=
  (cs.reverse.takeWhile (fun c => c != '/')).reverse

/-- Model of node path.basename. -/
def basename (p : String) : String := String.mk (takeAfterLastSlash p.data)

/-- Model of node path.join for one folder and one relative entry. -/
def pathJoin (a b : String) : String := a ++ "/" ++ b

/-- JS object or Map assignment: replace the first binding for the key in
place, or append a fresh binding at the end. -/
def assocSet {α : Type} : List (String × α) → String → α → List (String × α)
  | [], k, v => [(k, v)]
  | e :: rest, k, v => if e.1 == k then (k, v) :: rest else e :: assocSet rest k v

/-- JS object or Map key lookup. -/
def assocFind {α : Type} (l : List (String × α)) (k : String) : Option α :=
  (l.find? (fun e => e.1 == k)).map (fun e => e.2)

/-- Content of one remote file.  A meta value stands for the JSON
serialization of a GistMetadata object (gist-manager.ts JSON.stringify);
decoding a text value fails, as JSON.parse throws on it. -/
inductive GistContent where
  | text (s : String)
  | meta (m : GistMetadata)
deriving Repr, DecidableEq

/-- JS truthiness of file.content in the carry-forward loop of updateGist:
the empty string is falsy, serialized metadata is a nonempty string. -/
def GistContent.truthy : GistContent → Bool
  | .text s => s != ""
  | .meta _ => true

/-- One remote document: description plus named files in insertion order. -/
structure Gist where
  description : String
  files : List (String × GistContent)
deriving Repr, DecidableEq

/-- State of the remote store: gist id to gist. -/
structure GistStore where
  gists : List (String × Gist)
deriving Repr, DecidableEq

/-- Model of octokit.gists.get: none when the id is unknown (the call throws). -/
def GistStore.findGist (st : GistStore) (id : String) : Option Gist :=
  (st.gists.find? (fun e => e.1 == id)).map (fun e => e.2)

/-- Model of a successful octokit.gists.create or gists.update write-back:
the new value shadows any previous one for the id. -/
def GistStore.setGist (st : GistStore) (id : String) (g : Gist) : GistStore :=
  ⟨(id, g) :: st.gists⟩

/-- Tool version pinned in the GistManager constructor (gist-manager.ts). -/
def toolVersion : String := "1.0.0"

/-- Name of the per-group metadata file (gist-manager.ts getMetadataFileName). -/
def metadataFileName (groupName : String) : String := "#" ++ groupName

/-- Model of JSON.parse on a gist file content, as used by getGistMetadata. -/
def decodeMetadata : GistContent → Option GistMetadata
  | .meta m => some m
  | .text _ => none

/-- Model of GistManager.createMetadataFile (gist-manager.ts 19-31): one file
named by metadataFileName whose content serializes the metadata record.  The
source writes no watchedFolders key, hence the field is none; files absent or
given both map through files.getD (JS files-or-empty, and the empty array is
truthy so it maps to itself either way). -/
def createMetadataFile (now groupName : String) (files : Option (List String)) :
    List (String × GistContent) :=
  [(metadataFileName groupName,
    GistContent.meta
      { uploadDate := now, version := toolVersion,
        watchedFiles := files.getD [], watchedFolders := none })]

/-- Model of GistManager.getGistMetadata (gist-manager.ts 33-46): fetch the
gist, read the metadata file, JSON.parse; any failure is caught and yields
null, modelled as none. -/
def getGistMetadata (store : GistStore) (gistId groupName : String) : Option GistMetadata :=
  match store.findGist gistId with
  | none => none
  | some g =>
    match assocFind g.files (metadataFileName groupName) with
    | some c => decodeMetadata c
    | none => none

/-- Gist description in createGist: group.description, or the fallback when
that is absent or the empty string (JS falsiness). -/
def gistDescription (g : FileGroup) : String :=
  match g.description with
  | some d => if d == "" then "File group: " ++ g.name else d
  | none => "File group: " ++ g.name

/-- File set built by GistManager.createGist (gist-manager.ts 48-59): the
metadata file seeded with group.files, then one entry per declared file under
its basename with its current content; unreadable files are caught and
skipped.  Declared folders are not consulted here. -/
def createGistFiles (fs : FileSystem) (now : String) (g : FileGroup) :
    List (String × GistContent) :=
  g.files.foldl
    (fun acc p =>
      match fs.readFile p with
      | some c => assocSet acc (basename p) (GistContent.text c)
      | none => acc)
    (createMetadataFile now g.name (some g.files))

/-- Model of GistManager.createGist (gist-manager.ts 48-79) on the success
path of the remote call; newId is the id chosen by the remote store. -/
def createGist (fs : FileSystem) (now newId : String) (store : GistStore) (g : FileGroup) :
    GistStore × String :=
  (store.setGist newId { description := gistDescription g, files := createGistFiles fs now g },
   newId)

/-- File map built by GistManager.updateGist (gist-manager.ts 85-107): fresh
metadata file carrying the watchedFiles recovered from the remote metadata
(or the empty list), then each change written under basename(change.path),
then every current remote file not already present and with truthy content
carried forward unchanged. -/
def updateGistFiles (store : GistStore) (gistId : String) (changes : List FileChange)
    (groupName now : String) (currentFiles : List (String × GistContent)) :
    List (String × GistContent) :=
  let watchedFiles :=
    match getGistMetadata store gistId groupName with
    | some m => m.watchedFiles
    | none => []
  let files1 := changes.foldl
    (fun acc ch => assocSet acc (basename ch.path) (GistContent.text ch.content))
    (createMetadataFile now groupName (some watchedFiles))
  currentFiles.foldl
    (fun acc e => if (assocFind acc e.1).isNone && e.2.truthy then acc ++ [e] else acc)
    files1

/-- Model of GistManager.updateGist (gist-manager.ts 81-117): the initial
fetch fails when the id is unknown and the error is rethrown; otherwise the
merged file map is written back. -/
def updateGist (store : GistStore) (gistId : String) (changes : List FileChange)
    (groupName now : String) : Except Unit GistStore :=
  match store.findGist gistId with
  | none => Except.error ()
  | some cur =>
    Except.ok (store.setGist gistId
      { cur with files := updateGistFiles store gistId changes groupName now cur.files })

/-- Model of ConfigManager.updateGroup (config.ts): replace the group at the
index matching the name, or do nothing when the name is absent. -/
def updateGroup (cfg : Config) (name : String) (g : FileGroup) : Config :=
  match cfg.groups.findIdx? (fun x => x.name == name) with
  | some i => { cfg with groups := cfg.groups.set i g }
  | none => cfg

/-- Model of FileWatcher.calculateFileHash (watcher.ts 22-30): digest of the
content, or the empty string when the read throws. -/
def calculateFileHash (hash : String → String) (fs : FileSystem) (p : String) : String :=
  match fs.readFile p with
  | some c => hash c
  | none => ""

/-- Concrete file paths found under one declared folder (watcher.ts 64-67):
the recursive listing joined onto the folder, keeping regular files; a
listing failure is caught and the folder skipped. -/
def folderPaths (fs : FileSystem) (folder : String) : List String :=
  match fs.readdirRec folder with
  | none => []
  | some entries => (entries.map (pathJoin folder)).filter fs.isFile

/-- The sequence of paths one detection pass visits: declared files in order,
then the files under each declared folder (watcher.ts loop structure).  No
deduplication is performed anywhere in the source. -/
def enumeratePaths (fs : FileSystem) (g : FileGroup) : List String :=
  g.files ++ (g.folders.getD []).flatMap (folderPaths fs)

/-- Per-path body shared verbatim by the two loops of
checkAndUpdateFileHashes (watcher.ts 38-57 and 68-87): an unreadable path or
an empty digest is skipped; a path whose stored fingerprint is absent or
different appends a change and a freshly stamped hash entry; an unchanged
path appends the existing entry untouched. -/
def processPath (hash : String → String) (fs : FileSystem) (stored : List FileHash)
    (now : String) (acc : List FileChange × List FileHash) (p : String) :
    List FileChange × List FileHash :=
  match fs.readFile p with
  | none => acc
  | some content =>
    let currentHash := hash content
    if currentHash == "" then acc
    else
      match stored.find? (fun h => h.path == p) with
      | some existing =>
        if existing.hash == currentHash then (acc.1, acc.2 ++ [existing])
        else (acc.1 ++ [{ path := p, content := content }],
              acc.2 ++ [{ path := p, hash := currentHash, lastSync := now }])
      | none =>
        (acc.1 ++ [{ path := p, content := content }],
         acc.2 ++ [{ path := p, hash := currentHash, lastSync := now }])

/-- Pure detection core of FileWatcher.checkAndUpdateFileHashes
(watcher.ts 32-94): the changedFiles and newHashes accumulated over every
visited path, looked up against the pass-constant group.fileHashes. -/
def detectChangesHash (hash : String → String) (fs : FileSystem) (g : FileGroup)
    (now : String) : List FileChange × List FileHash :=
  (enumeratePaths fs g).foldl (processPath hash fs (g.fileHashes.getD []) now) ([], [])

/-- JS truthiness of an optional string (group.gistId guard). -/
def optStringTruthy : Option String → Bool
  | some s => s != ""
  | none => false

/-- Result of one full detection-and-push step. -/
structure SyncOutcome where
  store : GistStore
  cfg : Config
  group : FileGroup
  status : Except Unit Unit

/-- Model of FileWatcher.checkAndUpdateFileHashes (watcher.ts 32-102)
including its effectful tail (96-101): when changes were detected and the
group has a truthy gistId, push them; only on success assign the new hash
table into the group and persist it through the configuration collaborator.
A remote failure propagates with every piece of state unchanged. -/
def checkAndUpdateFileHashes (hash : String → String) (fs : FileSystem) (now : String)
    (store : GistStore) (cfg : Config) (g : FileGroup) : SyncOutcome :=
  let r := detectChangesHash hash fs g now
  if 0 < r.1.length ∧ optStringTruthy g.gistId then
    match updateGist store (g.gistId.getD "") r.1 g.name now with
    | Except.ok store1 =>
      let g1 := { g with fileHashes := some r.2 }
      { store := store1, cfg := updateGroup cfg g.name g1, group := g1, status := Except.ok () }
    | Except.error e => { store := store, cfg := cfg, group := g, status := Except.error e }
  else { store := store, cfg := cfg, group := g, status := Except.ok () }

/-- Per-path body of the snapshot detector (watcher.ts 113-127 and 138-151):
compare current text against the live in-memory map, record a change and
update the map on any difference or first observation. -/
def processPathSnapshot (fs : FileSystem)
    (acc : List FileChange × List (String × String)) (p : String) :
    List FileChange × List (String × String) :=
  match fs.readFile p with
  | none => acc
  | some c =>
    match assocFind acc.2 p with
    | some prev =>
      if prev == c then acc
      else (acc.1 ++ [{ path := p, content := c }], assocSet acc.2 p c)
    | none => (acc.1 ++ [{ path := p, content := c }], assocSet acc.2 p c)

/-- Pure detection core of FileWatcher.checkFileChanges: accumulated changes
and the mutated in-memory snapshot map. -/
def detectChangesSnapshot (fs : FileSystem) (g : FileGroup)
    (states : List (String × String)) : List FileChange × List (String × String) :=
  (enumeratePaths fs g).foldl (processPathSnapshot fs) ([], states)

/-- Result of one interval tick. -/
structure TickOutcome where
  store : GistStore
  cfg : Config
  group : FileGroup
  states : List (String × String)
  status : Except Unit Unit

/-- Model of FileWatcher.checkFileChanges (watcher.ts 104-164), the interval
tick handler: run the snapshot detector, push when anything changed.  The
source never touches group.fileHashes nor the configuration collaborator
here, and the snapshot map was already mutated during detection. -/
def checkFileChanges (fs : FileSystem) (now : String) (store : GistStore) (cfg : Config)
    (g : FileGroup) (states : List (String × String)) : TickOutcome :=
  let r := detectChangesSnapshot fs g states
  if 0 < r.1.length then
    match updateGist store (g.gistId.getD "") r.1 g.name now with
    | Except.ok store1 => ⟨store1, cfg, g, r.2, Except.ok ()⟩
    | Except.error e => ⟨store, cfg, g, r.2, Except.error e⟩
  else ⟨store, cfg, g, r.2, Except.ok ()⟩

/-- Model of the findIndex-then-set-or-push update of one FileHash entry
(watcher.ts 268-279). -/
def upsertFileHash : List FileHash → FileHash → List FileHash
  | [], nh => [nh]
  | h :: rest, nh => if h.path == nh.path then nh :: rest else h :: upsertFileHash rest nh

/-- State of the continuous-mode watcher for one group: the pending debounce
timer (the path captured by the armed setTimeout, none when no timer is
pending), the group, the configuration, the remote store, and the log of
updateGist invocations (gist id and change batch) issued so far. -/
structure WatcherState where
  pending : Option String
  group : FileGroup
  cfg : Config
  store : GistStore
  calls : List (String × List FileChange)

/-- Body of the debounce timer callback (watcher.ts 253-285): read the
triggering path (a failing read is caught and ends the callback), issue the
updateGist call, and only on success stamp and upsert the FileHash entry of
that path and persist the group; the hash read is guarded against the empty
digest, and a remote failure is caught leaving group and configuration
untouched. -/
def fireDebounce (hash : String → String) (fs : FileSystem) (now : String)
    (s : WatcherState) (p : String) : WatcherState :=
  match fs.readFile p with
  | none => s
  | some content =>
    let changes : List FileChange := [{ path := p, content := content }]
    let gid := s.group.gistId.getD ""
    let s1 := { s with calls := s.calls ++ [(gid, changes)] }
    match updateGist s.store gid changes s.group.name now with
    | Except.error _ => s1
    | Except.ok store1 =>
      let s2 := { s1 with store := store1 }
      let currentHash := calculateFileHash hash fs p
      if currentHash == "" then s2
      else
        let g1 := { s.group with
          fileHashes := some (upsertFileHash (s.group.fileHashes.getD [])
            { path := p, hash := currentHash, lastSync := now }) }
        { s2 with group := g1, cfg := updateGroup s.cfg s.group.name g1 }

/-- Observable events of the debounce machinery: a qualifying filesystem
event for a path, or the pending timer elapsing without interruption. -/
inductive WatchEvent where
  | change (p : String)
  | fire

/-- One step of FileWatcher.handleFileChange (watcher.ts 243-287): a
qualifying event clears any pending timer and arms a fresh one capturing its
path; an elapse with no pending timer does nothing, otherwise it runs the
callback body and the timer is spent. -/
def debounceStep (hash : String → String) (fs : FileSystem) (now : String)
    (s : WatcherState) : WatchEvent → WatcherState
  | .change p => { s with pending := some p }
  | .fire =>
    match s.pending with
    | none => s
    | some p => { fireDebounce hash fs now s p with pending := none }

/-- A sequence of debounce events processed in order. -/
def runWatchEvents (hash : String → String) (fs : FileSystem) (now : String)
    (s : WatcherState) (evs : List WatchEvent) : WatcherState :=
  evs.foldl (debounceStep hash fs now) s

/-- Per-path delta of changed files contributed by one visit of processPath. -/
def pathDeltaC (hash : String → String) (fs : FileSystem) (stored : List FileHash)
    (now p : String) : List FileChange :=
  (processPath hash fs stored now ([], []) p).1

/-- Per-path delta of hash entries contributed by one visit of processPath. -/
def pathDeltaH (hash : String → String) (fs : FileSystem) (stored : List FileHash)
    (now p : String) : List FileHash :=
  (processPath hash fs stored now ([], []) p).2

/-- Decision of whether one visited path counts as changed: readable, with a
nonempty digest that is absent from or different in the stored table. -/
def isChangedAt (hash : String → String) (fs : FileSystem) (stored : List FileHash)
    (p : String) : Bool :=
  match fs.readFile p with
  | none => false
  | some c =>
    if hash c == "" then false
    else
      match stored.find? (fun h => h.path == p) with
      | some e => e.hash != hash c
      | none => true

/-- Status projection used in concrete statements. -/
def statusOk : Except Unit Unit → Bool
  | Except.ok _ => true
  | Except.error _ => false

/-- Value of a successful Except, with a default for the error case. -/
def exceptOkD {ε α : Type} (d : α) : Except ε α → α
  | Except.ok a => a
  | Except.error _ => d

/-- Concrete injective digest standing in for SHA-256 in witnesses. -/
def demoHash (s : String) : String := "h:" ++ s

/-- Concrete filesystem for the detection witness: two declared files. -/
def fsW1 : FileSystem := ⟨[("a", "x"), ("b", "y")], []⟩

/-- Concrete group for the detection witness: file a changed, file b not. -/
def gW1 : FileGroup :=
  { name := "g1", files := ["a", "b"], gistId := some "id1",
    fileHashes := some [⟨"a", "h:old", "t0"⟩, ⟨"b", "h:y", "t0"⟩] }

/-- Concrete group pointing at a gist id absent from the remote store. -/
def gW2 : FileGroup := { name := "g2", files := ["a"], gistId := some "missing" }

/-- Concrete filesystem for the atomicity witness. -/
def fsW2 : FileSystem := ⟨[("a", "x")], []⟩

/-- Concrete configuration holding gW2. -/
def cfgW2 : Config := ⟨"", [gW2]⟩

/-- Concrete watcher state whose remote store is empty, so every push fails. -/
def sW2 : WatcherState := ⟨none, gW2, cfgW2, ⟨[]⟩, []⟩

/-- Remote metadata fixture used by several concrete stores. -/
def mFix : GistMetadata := ⟨"t0", "1.0.0", [], none⟩

/-- Remote file set of the naming counterexample gist. -/
def filesC3 : List (String × GistContent) := [("#docs", GistContent.meta mFix)]

/-- Remote store of the naming counterexample: one gist for group docs. -/
def storeC3 : GistStore := ⟨[("g1", ⟨"d", filesC3⟩)]⟩

/-- Filesystem with one declared file and one folder holding one file. -/
def fsC4 : FileSystem :=
  ⟨[("/tmp/a.txt", "hello"), ("/tmp/d/x.txt", "hi")], [("/tmp/d", ["x.txt"])]⟩

/-- Group with both a declared file and a declared folder. -/
def gC4 : FileGroup := { name := "grp", files := ["/tmp/a.txt"], folders := some ["/tmp/d"] }

/-- Group tracking only a folder, for the creation counterexample. -/
def gC5 : FileGroup := { name := "g5", files := [], folders := some ["/tmp/d"] }

/-- Group for the interval-mode counterexample, with a stale hash entry. -/
def gC6 : FileGroup :=
  { name := "g6", files := ["a"], gistId := some "id6",
    fileHashes := some [⟨"a", "h:old", "t0"⟩] }

/-- Filesystem where file a now holds fresh content. -/
def fsC6 : FileSystem := ⟨[("a", "new")], []⟩

/-- Remote store holding the gist of gC6. -/
def storeC6 : GistStore := ⟨[("id6", ⟨"d", [("#g6", GistContent.meta mFix)]⟩)]⟩

/-- Configuration holding gC6. -/
def cfgC6 : Config := ⟨"", [gC6]⟩

/-- In-memory snapshot map recording the previous content of file a. -/
def statesC6 : List (String × String) := [("a", "old")]

/-- Group for the debounce witness. -/
def gW7 : FileGroup := { name := "g7", files := ["a"], gistId := some "id7", fileHashes := some [] }

/-- Remote store holding the gist of gW7. -/
def storeW7 : GistStore :=
  ⟨[("id7", ⟨"d", [("#g7", GistContent.meta ⟨"t0", "1.0.0", ["a"], none⟩)]⟩)]⟩

/-- Initial watcher state for the debounce witness: no pending timer. -/
def sW7 : WatcherState := ⟨none, gW7, ⟨"", [gW7]⟩, storeW7, []⟩

/-- Filesystem at the moment the debounce timer of the witness fires. -/
def fsW7 : FileSystem := ⟨[("a", "v3")], []⟩

/-- Filesystem for the dedup counterexample: one file inside one folder. -/
def fsC8 : FileSystem := ⟨[("/tmp/d/x.txt", "hi")], [("/tmp/d", ["x.txt"])]⟩

/-- Group declaring the same concrete file both directly and via its folder. -/
def gC8 : FileGroup :=
  { name := "g8", files := ["/tmp/d/x.txt"], folders := some ["/tmp/d"],
    gistId := some "id8", fileHashes := some [] }

/-- Filesystem for the hash-persistence counterexample: file a unreadable. -/
def fsC9 : FileSystem := ⟨[("b", "z")], []⟩

/-- Group with stored entries for files a and b. -/
def gC9 : FileGroup :=
  { name := "g9", files := ["a", "b"], gistId := some "id9",
    fileHashes := some [⟨"a", "h:x", "t0"⟩, ⟨"b", "h:y", "t0"⟩] }

/-- Remote store holding the gist of gC9. -/
def storeC9 : GistStore := ⟨[("id9", ⟨"d", [("#g9", GistContent.meta mFix)]⟩)]⟩

/-- Configuration holding gC9. -/
def cfgC9 : Config := ⟨"", [gC9]⟩

/-- Change batch for the metadata-source witness. -/
def changesW10 : List FileChange := [{ path := "/x/y.txt", content := "c" }]

/-- Remote store for the metadata-source witness, with nonempty watch list. -/
def storeW10 : GistStore :=
  ⟨[("id10", ⟨"d", [("#gA", GistContent.meta ⟨"t0", "1.0.0", ["w1"], none⟩)]⟩)]⟩

/-- Lookup after the cons of one binding. -/
theorem assocFind_cons {α : Type} (e : String × α) (l : List (String × α)) (k : String) :
    assocFind (e :: l) k = if e.1 == k then some e.2 else assocFind l k := by
  by_cases h : e.1 == k
  · simp [assocFind, List.find?_cons_of_pos, h]
  · simp only [h, if_false]
    simp only [Bool.not_eq_true] at h
    simp [assocFind, List.find?_cons_of_neg, h]

/-- Setting a key makes it found with the new value. -/
theorem assocFind_assocSet_self {α : Type} (l : List (String × α)) (k : String) (v : α) :
    assocFind (assocSet l k v) k = some v := by
  induction l with
  | nil => simp [assocSet, assocFind_cons]
  | cons e rest ih =>
    by_cases h : e.1 == k
    · simp [assocSet, h, assocFind_cons]
    · simp [assocSet, h, assocFind_cons, ih]

/-- Setting one key leaves every other key unchanged. -/
theorem assocFind_assocSet_ne {α : Type} (l : List (String × α)) (k : String) (v : α)
    (k' : String) (hne : k' ≠ k) :
    assocFind (assocSet l k v) k' = assocFind l k' := by
  have hne2 : ¬ (k = k') := fun hk2 => hne hk2.symm
  induction l with
  | nil => simp [assocSet, assocFind_cons, assocFind, hne2]
  | cons e rest ih =>
    by_cases h : e.1 == k
    · have hk : e.1 = k := by simpa using h
      simp [assocSet, h, assocFind_cons, hk, hne2]
    · simp [assocSet, h, assocFind_cons, ih]

/-- Setting any key preserves the presence of every present key. -/
theorem assocFind_assocSet_isSome {α : Type} (l : List (String × α)) (k : String) (v : α)
    (k' : String) (h : (assocFind l k').isSome) :
    (assocFind (assocSet l k v) k').isSome := by
  by_cases hk : k' = k
  · subst hk; simp [assocFind_assocSet_self]
  · rwa [assocFind_assocSet_ne l k v k' hk]

/-- A key found on the left of an append is found in the append. -/
theorem assocFind_append_left {α : Type} (l l' : List (String × α)) (k : String) (v : α)
    (h : assocFind l k = some v) : assocFind (l ++ l') k = some v := by
  induction l with
  | nil => simp [assocFind] at h
  | cons e rest ih =>
    rw [List.cons_append, assocFind_cons]
    rw [assocFind_cons] at h
    by_cases he : e.1 == k
    · simpa [he] using h
    · simp only [he, if_false] at h ⊢
      exact ih h

/-- An element of a set list is an old element or the fresh binding. -/
theorem mem_assocSet {α : Type} (l : List (String × α)) (k : String) (v : α)
    (e : String × α) (h : e ∈ assocSet l k v) : e ∈ l ∨ e = (k, v) := by
  induction l with
  | nil => simp [assocSet] at h; exact Or.inr h
  | cons f rest ih =>
    by_cases hf : f.1 == k
    · simp only [assocSet, hf, if_true] at h
      rcases List.mem_cons.mp h with h1 | h1
      · exact Or.inr h1
      · exact Or.inl (List.mem_cons_of_mem f h1)
    · simp only [assocSet, hf, if_false] at h
      rcases List.mem_cons.mp h with h1 | h1
      · exact Or.inl (by simp [h1])
      · rcases ih h1 with h2 | h2
        · exact Or.inl (List.mem_cons_of_mem f h2)
        · exact Or.inr h2

/-- One visit of processPath only appends its per-path deltas. -/
theorem processPath_eq_append (hash : String → String) (fs : FileSystem)
    (stored : List FileHash) (now p : String) (acc : List FileChange × List FileHash) :
    processPath hash fs stored now acc p =
      (acc.1 ++ pathDeltaC hash fs stored now p, acc.2 ++ pathDeltaH hash fs stored now p) := by
  cases hr : fs.readFile p with
  | none => simp [processPath, pathDeltaC, pathDeltaH, hr]
  | some content =>
    by_cases hz : (hash content == "") = true
    · simp [processPath, pathDeltaC, pathDeltaH, hr, hz]
    · cases hf : stored.find? (fun h => h.path == p) with
      | none => simp [processPath, pathDeltaC, pathDeltaH, hr, hz, hf]
      | some e =>
        by_cases hh : (e.hash == hash content) = true
        · simp [processPath, pathDeltaC, pathDeltaH, hr, hz, hf, hh]
        · simp [processPath, pathDeltaC, pathDeltaH, hr, hz, hf, hh]

/-- A fold of processPath splits into the flat deltas of the visited paths. -/
theorem foldl_processPath (hash : String → String) (fs : FileSystem)
    (stored : List FileHash) (now : String) :
    ∀ (ps : List String) (acc : List FileChange × List FileHash),
      ps.foldl (processPath hash fs stored now) acc =
        (acc.1 ++ ps.flatMap (pathDeltaC hash fs stored now),
         acc.2 ++ ps.flatMap (pathDeltaH hash fs stored now))
  | [], acc => by simp
  | p :: ps, acc => by
    rw [List.foldl_cons, processPath_eq_append,
      foldl_processPath hash fs stored now ps]
    simp

/-- The hash detector is the flat deltas over the enumerated paths. -/
theorem detect_eq (hash : String → String) (fs : FileSystem) (g : FileGroup) (now : String) :
    detectChangesHash hash fs g now =
      ((enumeratePaths fs g).flatMap (pathDeltaC hash fs (g.fileHashes.getD []) now),
       (enumeratePaths fs g).flatMap (pathDeltaH hash fs (g.fileHashes.getD []) now)) := by
  unfold detectChangesHash
  rw [foldl_processPath]
  simp

/-- Delta of an unreadable path: nothing is recorded. -/
theorem pathDelta_skip (hash : String → String) (fs : FileSystem) (stored : List FileHash)
    (now p : String) (hr : fs.readFile p = none) :
    pathDeltaC hash fs stored now p = [] ∧ pathDeltaH hash fs stored now p = [] := by
  simp [pathDeltaC, pathDeltaH, processPath, hr]

/-- Delta of an unchanged path: no change, the stored entry carried forward. -/
theorem pathDelta_unchanged (hash : String → String) (fs : FileSystem)
    (stored : List FileHash) (now p c : String) (e : FileHash)
    (hr : fs.readFile p = some c) (hne : hash c ≠ "")
    (hf : stored.find? (fun h => h.path == p) = some e) (hh : e.hash = hash c) :
    pathDeltaC hash fs stored now p = [] ∧ pathDeltaH hash fs stored now p = [e] := by
  simp [pathDeltaC, pathDeltaH, processPath, hr, hf, hh, hne]

/-- Delta of a path whose stored fingerprint differs: a change plus a fresh
stamped entry. -/
theorem pathDelta_changed (hash : String → String) (fs : FileSystem)
    (stored : List FileHash) (now p c : String) (e : FileHash)
    (hr : fs.readFile p = some c) (hne : hash c ≠ "")
    (hf : stored.find? (fun h => h.path == p) = some e) (hh : e.hash ≠ hash c) :
    pathDeltaC hash fs stored now p = [{ path := p, content := c }] ∧
    pathDeltaH hash fs stored now p = [{ path := p, hash := hash c, lastSync := now }] := by
  simp [pathDeltaC, pathDeltaH, processPath, hr, hf, hh, hne]

/-- Delta of a path with no stored fingerprint: a change plus a fresh entry. -/
theorem pathDelta_new (hash : String → String) (fs : FileSystem)
    (stored : List FileHash) (now p c : String)
    (hr : fs.readFile p = some c) (hne : hash c ≠ "")
    (hf : stored.find? (fun h => h.path == p) = none) :
    pathDeltaC hash fs stored now p = [{ path := p, content := c }] ∧
    pathDeltaH hash fs stored now p = [{ path := p, hash := hash c, lastSync := now }] := by
  simp [pathDeltaC, pathDeltaH, processPath, hr, hf, hne]

/-- Every change contributed by a visit of p carries path p. -/
theorem pathDeltaC_path (hash : String → String) (fs : FileSystem) (stored : List FileHash)
    (now p : String) (ch : FileChange) (h : ch ∈ pathDeltaC hash fs stored now p) :
    ch.path = p := by
  cases hr : fs.readFile p with
  | none => simp [pathDeltaC, processPath, hr] at h
  | some content =>
    by_cases hz : (hash content == "") = true
    · simp [pathDeltaC, processPath, hr, hz] at h
    · cases hf : stored.find? (fun h => h.path == p) with
      | none =>
        simp [pathDeltaC, processPath, hr, hz, hf] at h
        rw [h]
      | some e =>
        by_cases hh : (e.hash == hash content) = true
        · simp [pathDeltaC, processPath, hr, hz, hf, hh] at h
        · simp [pathDeltaC, processPath, hr, hz, hf, hh] at h
          rw [h]

/-- The change paths contributed by one visit, as a filter-shaped list. -/
theorem pathDeltaC_map_path (hash : String → String) (fs : FileSystem)
    (stored : List FileHash) (now p : String) :
    (pathDeltaC hash fs stored now p).map FileChange.path =
      (if isChangedAt hash fs stored p then [p] else []) := by
  cases hr : fs.readFile p with
  | none => simp [pathDeltaC, processPath, isChangedAt, hr]
  | some content =>
    by_cases hz : (hash content == "") = true
    · simp [pathDeltaC, processPath, isChangedAt, hr, hz]
    · cases hf : stored.find? (fun h => h.path == p) with
      | none => simp [pathDeltaC, processPath, isChangedAt, hr, hz, hf]
      | some e =>
        by_cases hh : (e.hash == hash content) = true
        · have hh2 : e.hash = hash content := by simpa using hh
          simp [pathDeltaC, processPath, isChangedAt, hr, hz, hf, hh, hh2]
        · have hh2 : ¬ (e.hash = hash content) := by simpa using hh
          simp [pathDeltaC, processPath, isChangedAt, hr, hz, hf, hh, hh2]

/-- A flat map of singleton-or-empty lists is a filter. -/
theorem flatMap_ite_singleton (q : String → Bool) :
    ∀ (ps : List String), (ps.flatMap fun p => if q p then [p] else []) = ps.filter q
  | [] => by simp
  | p :: ps => by
    rw [List.flatMap_cons, List.filter_cons, flatMap_ite_singleton q ps]
    by_cases h : q p <;> simp [h]

/-- C1: hash-based detection in checkAndUpdateFileHashes.  For every
enumerated path readable with content c and a nonempty digest: when the
fingerprint stored for that exact path string equals the current one, the
existing FileHash entry (same fingerprint and timestamp) is carried into the
returned hash table unchanged and the path appears in no changed file; when
the stored fingerprint is absent or different, the path appears among the
changed files with its current decoded content and a fresh FileHash entry
stamped with the current time is recorded. -/
theorem checkHash_detection (hash : String → String) (fs : FileSystem) (g : FileGroup)
    (now p c : String) (hp : p ∈ enumeratePaths fs g) (hc : fs.readFile p = some c)
    (hne : hash c ≠ "") :
    (∀ e, (g.fileHashes.getD []).find? (fun h => h.path == p) = some e → e.hash = hash c →
        e ∈ (detectChangesHash hash fs g now).2
        ∧ ∀ ch ∈ (detectChangesHash hash fs g now).1, ch.path ≠ p)
  ∧ ((g.fileHashes.getD []).find? (fun h => h.path == p) = none
       ∨ (∃ e, (g.fileHashes.getD []).find? (fun h => h.path == p) = some e ∧ e.hash ≠ hash c) →
      ({ path := p, content := c } : FileChange) ∈ (detectChangesHash hash fs g now).1
      ∧ ({ path := p, hash := hash c, lastSync := now } : FileHash) ∈
          (detectChangesHash hash fs g now).2) := by
  rw [detect_eq]
  constructor
  · intro e hf hh
    constructor
    · exact List.mem_flatMap.mpr
        ⟨p, hp, by
          rw [(pathDelta_unchanged hash fs (g.fileHashes.getD []) now p c e hc hne hf hh).2]
          simp⟩
    · intro ch hch heq
      obtain ⟨q, hq, hchq⟩ := List.mem_flatMap.mp hch
      have hqp : ch.path = q := pathDeltaC_path hash fs (g.fileHashes.getD []) now q ch hchq
      rw [heq] at hqp
      rw [← hqp] at hchq
      rw [(pathDelta_unchanged hash fs (g.fileHashes.getD []) now p c e hc hne hf hh).1] at hchq
      simp at hchq
  · intro hcase
    have hd : pathDeltaC hash fs (g.fileHashes.getD []) now p = [{ path := p, content := c }]
        ∧ pathDeltaH hash fs (g.fileHashes.getD []) now p =
            [{ path := p, hash := hash c, lastSync := now }] := by
      rcases hcase with hf | ⟨e, hf, hh⟩
      · exact pathDelta_new hash fs (g.fileHashes.getD []) now p c hc hne hf
      · exact pathDelta_changed hash fs (g.fileHashes.getD []) now p c e hc hne hf hh
    constructor
    · exact List.mem_flatMap.mpr ⟨p, hp, by rw [hd.1]; simp⟩
    · exact List.mem_flatMap.mpr ⟨p, hp, by rw [hd.2]; simp⟩

/-- Witness for C1: concrete run where file a changed (fresh entry recorded)
and file b is unchanged (entry carried, not reported changed). -/
theorem checkHash_detection_witness :
    ("a" ∈ enumeratePaths fsW1 gW1 ∧ fsW1.readFile "a" = some "x" ∧ demoHash "x" ≠ "")
  ∧ ({ path := "a", content := "x" } : FileChange) ∈ (detectChangesHash demoHash fsW1 gW1 "t1").1
  ∧ (⟨"b", "h:y", "t0"⟩ : FileHash) ∈ (detectChangesHash demoHash fsW1 gW1 "t1").2
  ∧ ∀ ch ∈ (detectChangesHash demoHash fsW1 gW1 "t1").1, ch.path ≠ "b" :=
  ⟨⟨by decide, by decide, by decide⟩,
   ((checkHash_detection demoHash fsW1 gW1 "t1" "a" "x" (by decide) (by decide) (by decide)).2
      (Or.inr ⟨⟨"a", "h:old", "t0"⟩, by decide, by decide⟩)).1,
   ((checkHash_detection demoHash fsW1 gW1 "t1" "b" "y" (by decide) (by decide) (by decide)).1
      ⟨"b", "h:y", "t0"⟩ (by decide) (by decide)).1,
   ((checkHash_detection demoHash fsW1 gW1 "t1" "b" "y" (by decide) (by decide) (by decide)).1
      ⟨"b", "h:y", "t0"⟩ (by decide) (by decide)).2⟩

/-- C8 counterexample: the concrete path /tmp/d/x.txt is both declared in
files and discoverable under the declared folder /tmp/d; one pass evaluates
it twice and it appears twice in changedFiles and twice in the returned hash
table, refuting at-most-once. -/
theorem dedup_cex :
    (detectChangesHash demoHash fsC8 gC8 "t1").1.map FileChange.path =
      ["/tmp/d/x.txt", "/tmp/d/x.txt"]
  ∧ ¬ ((detectChangesHash demoHash fsC8 gC8 "t1").1.countP
        (fun ch => ch.path == "/tmp/d/x.txt") ≤ 1)
  ∧ ¬ ((detectChangesHash demoHash fsC8 gC8 "t1").2.countP
        (fun h => h.path == "/tmp/d/x.txt") ≤ 1) := by decide

/-- C8 amended: enumeration is not deduplicated — every detection pass visits
each occurrence of a path separately, and changedFiles contains exactly one
entry per visited occurrence that qualifies as changed, so a path both
declared in files and discoverable under a declared folder is evaluated once
per occurrence and can appear more than once. -/
theorem detect_per_occurrence (hash : String → String) (fs : FileSystem) (g : FileGroup)
    (now : String) :
    (detectChangesHash hash fs g now).1.map FileChange.path =
      (enumeratePaths fs g).filter (isChangedAt hash fs (g.fileHashes.getD [])) := by
  rw [detect_eq]
  simp only
  rw [List.map_flatMap]
  rw [show (fun a => List.map FileChange.path (pathDeltaC hash fs (g.fileHashes.getD []) now a))
      = (fun a => if isChangedAt hash fs (g.fileHashes.getD []) a then [a] else []) from
    funext (fun a => pathDeltaC_map_path hash fs (g.fileHashes.getD []) now a)]
  exact flatMap_ite_singleton _ _

/-- Upserting one entry preserves every entry whose path differs. -/
theorem mem_upsertFileHash (l : List FileHash) (nh e : FileHash)
    (he : e ∈ l) (hne : e.path ≠ nh.path) : e ∈ upsertFileHash l nh := by
  induction l with
  | nil => simp at he
  | cons h rest ih =>
    by_cases hh : (h.path == nh.path) = true
    · simp only [upsertFileHash, hh, if_true]
      rcases List.mem_cons.mp he with h1 | h1
      · have : e.path = nh.path := by rw [h1]; simpa using hh
        exact absurd this hne
      · exact List.mem_cons_of_mem nh h1
    · simp only [upsertFileHash, hh, if_false]
      rcases List.mem_cons.mp he with h1 | h1
      · exact h1 ▸ List.mem_cons_self h (upsertFileHash rest nh)
      · exact List.mem_cons_of_mem h (ih h1)

/-- Shape of a pass that pushes nothing: everything unchanged, status ok. -/
theorem checkAndUpdate_noop (hash : String → String) (fs : FileSystem) (now : String)
    (store : GistStore) (cfg : Config) (g : FileGroup)
    (h : ¬ (0 < (detectChangesHash hash fs g now).1.length
            ∧ optStringTruthy g.gistId = true)) :
    checkAndUpdateFileHashes hash fs now store cfg g
      = { store := store, cfg := cfg, group := g, status := Except.ok () } := by
  simp only [checkAndUpdateFileHashes]
  rw [if_neg h]

/-- Shape of a pass whose push succeeds: table assigned and persisted. -/
theorem checkAndUpdate_ok (hash : String → String) (fs : FileSystem) (now : String)
    (store : GistStore) (cfg : Config) (g : FileGroup) (st1 : GistStore)
    (h : 0 < (detectChangesHash hash fs g now).1.length ∧ optStringTruthy g.gistId = true)
    (hu : updateGist store (g.gistId.getD "") (detectChangesHash hash fs g now).1 g.name now
          = Except.ok st1) :
    checkAndUpdateFileHashes hash fs now store cfg g
      = { store := st1,
          cfg := updateGroup cfg g.name
            { g with fileHashes := some (detectChangesHash hash fs g now).2 },
          group := { g with fileHashes := some (detectChangesHash hash fs g now).2 },
          status := Except.ok () } := by
  simp only [checkAndUpdateFileHashes]
  rw [if_pos h, hu]

/-- Shape of a pass whose push fails: everything unchanged, error status. -/
theorem checkAndUpdate_err (hash : String → String) (fs : FileSystem) (now : String)
    (store : GistStore) (cfg : Config) (g : FileGroup) (e : Unit)
    (h : 0 < (detectChangesHash hash fs g now).1.length ∧ optStringTruthy g.gistId = true)
    (hu : updateGist store (g.gistId.getD "") (detectChangesHash hash fs g now).1 g.name now
          = Except.error e) :
    checkAndUpdateFileHashes hash fs now store cfg g
      = { store := store, cfg := cfg, group := g, status := Except.error e } := by
  simp only [checkAndUpdateFileHashes]
  rw [if_pos h, hu]

/-- C2: atomicity on remote failure.  When the remote update fails during a
hash-based detection pass, the group, the configuration and the remote store
are all returned unchanged; when the pass does mutate the group, the push
succeeded and the new table is exactly the detected one, so hashes are
persisted only after success.  The same holds for the debounced change push:
a failing updateGist leaves group and configuration untouched. -/
theorem remote_failure_atomic (hash : String → String) (fs : FileSystem) (now : String)
    (store : GistStore) (cfg : Config) (g : FileGroup) (s : WatcherState) (p : String) :
    ((checkAndUpdateFileHashes hash fs now store cfg g).status = Except.error () →
      (checkAndUpdateFileHashes hash fs now store cfg g).group = g
      ∧ (checkAndUpdateFileHashes hash fs now store cfg g).cfg = cfg
      ∧ (checkAndUpdateFileHashes hash fs now store cfg g).store = store)
  ∧ ((checkAndUpdateFileHashes hash fs now store cfg g).group ≠ g →
      (checkAndUpdateFileHashes hash fs now store cfg g).status = Except.ok ()
      ∧ (checkAndUpdateFileHashes hash fs now store cfg g).group.fileHashes
          = some (detectChangesHash hash fs g now).2)
  ∧ (∀ c, fs.readFile p = some c →
      updateGist s.store (s.group.gistId.getD "") [{ path := p, content := c }]
          s.group.name now = Except.error () →
      (fireDebounce hash fs now s p).group = s.group
      ∧ (fireDebounce hash fs now s p).cfg = s.cfg) := by
  by_cases hcond : (0 < (detectChangesHash hash fs g now).1.length
      ∧ optStringTruthy g.gistId = true)
  case neg =>
    rw [checkAndUpdate_noop hash fs now store cfg g hcond]
    refine ⟨by simp, by simp, ?_⟩
    intro c hc hupd
    simp [fireDebounce, hc, hupd]
  case pos =>
    cases hu : updateGist store (g.gistId.getD "") (detectChangesHash hash fs g now).1
        g.name now with
    | ok st1 =>
      rw [checkAndUpdate_ok hash fs now store cfg g st1 hcond hu]
      refine ⟨by simp, by simp, ?_⟩
      intro c hc hupd
      simp [fireDebounce, hc, hupd]
    | error e =>
      rw [checkAndUpdate_err hash fs now store cfg g e hcond hu]
      refine ⟨by simp, by simp, ?_⟩
      intro c hc hupd
      simp [fireDebounce, hc, hupd]

/-- Witness for C2: with the gist id absent from the remote store both the
detection pass and the debounced push fail, and group, configuration and
store come back untouched. -/
theorem remote_failure_atomic_witness :
    (checkAndUpdateFileHashes demoHash fsW2 "t1" ⟨[]⟩ cfgW2 gW2).status = Except.error ()
  ∧ (checkAndUpdateFileHashes demoHash fsW2 "t1" ⟨[]⟩ cfgW2 gW2).group = gW2
  ∧ (checkAndUpdateFileHashes demoHash fsW2 "t1" ⟨[]⟩ cfgW2 gW2).cfg = cfgW2
  ∧ (checkAndUpdateFileHashes demoHash fsW2 "t1" ⟨[]⟩ cfgW2 gW2).store = (⟨[]⟩ : GistStore)
  ∧ fsW2.readFile "a" = some "x"
  ∧ (fireDebounce demoHash fsW2 "t1" sW2 "a").group = sW2.group
  ∧ (fireDebounce demoHash fsW2 "t1" sW2 "a").cfg = sW2.cfg :=
  ⟨rfl,
   (remote_failure_atomic demoHash fsW2 "t1" ⟨[]⟩ cfgW2 gW2 sW2 "a").1 rfl |>.1,
   (remote_failure_atomic demoHash fsW2 "t1" ⟨[]⟩ cfgW2 gW2 sW2 "a").1 rfl |>.2.1,
   (remote_failure_atomic demoHash fsW2 "t1" ⟨[]⟩ cfgW2 gW2 sW2 "a").1 rfl |>.2.2,
   by decide,
   (remote_failure_atomic demoHash fsW2 "t1" ⟨[]⟩ cfgW2 gW2 sW2 "a").2.2 "x" (by decide)
     rfl |>.1,
   (remote_failure_atomic demoHash fsW2 "t1" ⟨[]⟩ cfgW2 gW2 sW2 "a").2.2 "x" (by decide)
     rfl |>.2⟩

/-- C9 counterexample: file a is temporarily unreadable while file b changed;
the pass succeeds and the persisted table drops the FileHash entry of a, so
entries are deleted by an ordinary detection pass. -/
theorem fileHash_drop_cex :
    ((checkAndUpdateFileHashes demoHash fsC9 "t1" storeC9 cfgC9 gC9).group.fileHashes.getD
        []).find? (fun h => h.path == "a") = none
  ∧ (((gC9.fileHashes.getD []).find? (fun h => h.path == "a")).isSome = true)
  ∧ statusOk (checkAndUpdateFileHashes demoHash fsC9 "t1" storeC9 cfgC9 gC9).status = true
  ∧ fsC9.readFile "a" = none := by decide

/-- C9 amended: the debounced handler never deletes an entry — it only
supersedes in place or appends, every entry for a different path surviving —
and a detection pass that finds no changes leaves the table untouched; but a
detection pass that finds changes and pushes successfully replaces the whole
table with the newly computed one, which contains entries only for currently
enumerated readable paths, so the entry of a temporarily unreadable path is
dropped rather than kept. -/
theorem fileHash_update_discipline (hash : String → String) (fs : FileSystem) (now : String)
    (store : GistStore) (cfg : Config) (g : FileGroup) (s : WatcherState) (p : String) :
    (∀ e ∈ s.group.fileHashes.getD [], e.path ≠ p →
        e ∈ (fireDebounce hash fs now s p).group.fileHashes.getD [])
  ∧ ((detectChangesHash hash fs g now).1 = [] →
      (checkAndUpdateFileHashes hash fs now store cfg g).group = g)
  ∧ ((checkAndUpdateFileHashes hash fs now store cfg g).group ≠ g →
      (checkAndUpdateFileHashes hash fs now store cfg g).group.fileHashes
        = some (detectChangesHash hash fs g now).2) := by
  refine ⟨?_, ?_, ?_⟩
  · intro e he hne
    cases hr : fs.readFile p with
    | none => simpa [fireDebounce, hr] using he
    | some content =>
      cases hu : updateGist s.store (s.group.gistId.getD "")
          [{ path := p, content := content }] s.group.name now with
      | error err => simpa [fireDebounce, hr, hu] using he
      | ok st1 =>
        by_cases hz : (calculateFileHash hash fs p == "") = true
        · simpa [fireDebounce, hr, hu, hz] using he
        · simp only [fireDebounce, hr, hu, hz, if_false, Option.getD_some]
          exact mem_upsertFileHash (s.group.fileHashes.getD [])
            { path := p, hash := calculateFileHash hash fs p, lastSync := now } e he hne
  · intro hnil
    rw [checkAndUpdate_noop hash fs now store cfg g (by simp [hnil])]
  · intro hgr
    by_cases hcond : (0 < (detectChangesHash hash fs g now).1.length
        ∧ optStringTruthy g.gistId = true)
    case neg =>
      rw [checkAndUpdate_noop hash fs now store cfg g hcond] at hgr
      simp at hgr
    case pos =>
      cases hu : updateGist store (g.gistId.getD "") (detectChangesHash hash fs g now).1
          g.name now with
      | ok st1 =>
        rw [checkAndUpdate_ok hash fs now store cfg g st1 hcond hu]
      | error e =>
        rw [checkAndUpdate_err hash fs now store cfg g e hcond hu] at hgr
        simp at hgr

/-- Witness for C9 amended: in the drop scenario the surviving entry of b is
exactly the recomputed table, an unchanged pass leaves gW1 untouched when
nothing differs, and the debounced handler keeps the entry of file b when
file a fires. -/
theorem fileHash_update_discipline_witness :
    ((⟨"b", "h:y", "t0"⟩ : FileHash) ∈
        (fireDebounce demoHash fsW1 "t1" ⟨none, gW1, ⟨"", [gW1]⟩, ⟨[]⟩, []⟩ "a").group.fileHashes.getD [])
  ∧ ((checkAndUpdateFileHashes demoHash fsC9 "t1" storeC9 cfgC9 gC9).group ≠ gC9)
  ∧ ((checkAndUpdateFileHashes demoHash fsC9 "t1" storeC9 cfgC9 gC9).group.fileHashes
      = some (detectChangesHash demoHash fsC9 gC9 "t1").2) :=
  ⟨(fileHash_update_discipline demoHash fsW1 "t1" storeC9 cfgC9 gC9
      ⟨none, gW1, ⟨"", [gW1]⟩, ⟨[]⟩, []⟩ "a").1 ⟨"b", "h:y", "t0"⟩ (by decide) (by decide),
   by decide,
   (fileHash_update_discipline demoHash fsC9 "t1" storeC9 cfgC9 gC9
      ⟨none, gW1, ⟨"", [gW1]⟩, ⟨[]⟩, []⟩ "a").2.2 (by decide)⟩

/-- The changes fold of updateGist leaves keys untouched that no change
basename maps to. -/
theorem changesFold_preserves (key : String) :
    ∀ (changes : List FileChange), (∀ ch ∈ changes, basename ch.path ≠ key) →
    ∀ acc : List (String × GistContent),
      assocFind (changes.foldl
        (fun acc ch => assocSet acc (basename ch.path) (GistContent.text ch.content)) acc) key
      = assocFind acc key
  | [], _, _ => rfl
  | ch :: rest, hm, acc => by
    rw [List.foldl_cons,
      changesFold_preserves key rest (fun c hc => hm c (List.mem_cons_of_mem ch hc)) _,
      assocFind_assocSet_ne acc (basename ch.path) (GistContent.text ch.content) key
        (Ne.symm (hm ch (List.mem_cons_self ch rest)))]

/-- The changes fold keeps every present key present. -/
theorem changesFold_mono (key : String) :
    ∀ (changes : List FileChange) (acc : List (String × GistContent)),
      (assocFind acc key).isSome = true →
      (assocFind (changes.foldl
        (fun acc ch => assocSet acc (basename ch.path) (GistContent.text ch.content)) acc)
        key).isSome = true
  | [], _, h => h
  | ch :: rest, acc, h => by
    rw [List.foldl_cons]
    exact changesFold_mono key rest _
      (assocFind_assocSet_isSome acc (basename ch.path) (GistContent.text ch.content) key h)

/-- After the changes fold, the basename of every change is a present key. -/
theorem changesFold_isSome :
    ∀ (changes : List FileChange) (ch : FileChange), ch ∈ changes →
    ∀ acc : List (String × GistContent),
      (assocFind (changes.foldl
        (fun acc ch => assocSet acc (basename ch.path) (GistContent.text ch.content)) acc)
        (basename ch.path)).isSome = true
  | [], ch, h, _ => absurd h (List.not_mem_nil ch)
  | c :: rest, ch, h, acc => by
    rw [List.foldl_cons]
    rcases List.mem_cons.mp h with h1 | h1
    · subst h1
      exact changesFold_mono (basename ch.path) rest _
        (by rw [assocFind_assocSet_self]; rfl)
    · exact changesFold_isSome rest ch h1 _

/-- The carry-forward fold of updateGist only appends, so a key bound to a
value stays bound to it. -/
theorem carryFold_preserves (key : String) (v : GistContent) :
    ∀ (cur : List (String × GistContent)) (acc : List (String × GistContent)),
      assocFind acc key = some v →
      assocFind (cur.foldl (fun acc e =>
        if (assocFind acc e.1).isNone && e.2.truthy then acc ++ [e] else acc) acc) key = some v
  | [], _, h => h
  | e :: rest, acc, h => by
    rw [List.foldl_cons]
    by_cases hc : ((assocFind acc e.1).isNone && e.2.truthy) = true
    · rw [if_pos hc]
      exact carryFold_preserves key v rest _ (assocFind_append_left acc [e] key v h)
    · rw [if_neg hc]
      exact carryFold_preserves key v rest _ h

/-- The carry-forward fold keeps every present key present. -/
theorem carryFold_mono (key : String) (cur : List (String × GistContent))
    (acc : List (String × GistContent)) (h : (assocFind acc key).isSome = true) :
    (assocFind (cur.foldl (fun acc e =>
      if (assocFind acc e.1).isNone && e.2.truthy then acc ++ [e] else acc) acc)
      key).isSome = true := by
  obtain ⟨v, hv⟩ := Option.isSome_iff_exists.mp h
  rw [carryFold_preserves key v cur acc hv]
  rfl

/-- C10: the metadata written by updateGist takes its watchedFiles solely
from the metadata fetched from the remote document, falling back to the
empty list, regardless of the change batch and of any local group data (the
group does not even reach this computation); no watchedFolders field is ever
written, by updateGist or by the createMetadataFile call of createGist. -/
theorem updateGist_metadata_source (store : GistStore) (gistId : String)
    (changes : List FileChange) (groupName now : String)
    (currentFiles : List (String × GistContent))
    (hm : ∀ ch ∈ changes, basename ch.path ≠ metadataFileName groupName) :
    assocFind (updateGistFiles store gistId changes groupName now currentFiles)
        (metadataFileName groupName)
      = some (GistContent.meta
          { uploadDate := now, version := toolVersion,
            watchedFiles :=
              (match getGistMetadata store gistId groupName with
               | some m => m.watchedFiles
               | none => []),
            watchedFolders := none })
  ∧ (∀ (now2 gn : String) (fl : Option (List String)),
      createMetadataFile now2 gn fl
        = [(metadataFileName gn, GistContent.meta
            { uploadDate := now2, version := toolVersion,
              watchedFiles := fl.getD [], watchedFolders := none })]) := by
  constructor
  · simp only [updateGistFiles]
    apply carryFold_preserves
    rw [changesFold_preserves (metadataFileName groupName) changes hm]
    simp [createMetadataFile, assocFind_cons]
  · intro now2 gn fl
    rfl

/-- Witness for C10: concrete update whose remote metadata lists w1; the
written record carries exactly that list and no folder field, although the
change batch names a different file. -/
theorem updateGist_metadata_source_witness :
    (∀ ch ∈ changesW10, basename ch.path ≠ metadataFileName "gA")
  ∧ assocFind (updateGistFiles storeW10 "id10" changesW10 "gA" "t1"
      [("#gA", GistContent.meta ⟨"t0", "1.0.0", ["w1"], none⟩)]) (metadataFileName "gA")
      = some (GistContent.meta ⟨"t1", toolVersion, ["w1"], none⟩) :=
  ⟨by decide,
   ((updateGist_metadata_source storeW10 "id10" changesW10 "gA" "t1"
      [("#gA", GistContent.meta ⟨"t0", "1.0.0", ["w1"], none⟩)] (by decide)).1).trans
     (by decide)⟩

/-- C3 counterexample: for the change of /tmp/d/x.txt under the declared
folder /tmp/d, the spec names the remote file d/x.txt, but updateGist writes
under the plain basename x.txt and no folder-qualified name occurs. -/
theorem remote_name_cex :
    assocFind (updateGistFiles storeC3 "g1" [{ path := "/tmp/d/x.txt", content := "hello" }]
      "docs" "t1" filesC3) "d/x.txt" = none
  ∧ assocFind (updateGistFiles storeC3 "g1" [{ path := "/tmp/d/x.txt", content := "hello" }]
      "docs" "t1" filesC3) "x.txt" = some (GistContent.text "hello")
  ∧ basename "/tmp/d/x.txt" = "x.txt" := by decide

/-- C3 amended: every changed path is written under the remote name
basename(path) unconditionally; updateGist receives no folder information,
so the folder-qualified name never arises.  The basename key of every change
is present in the written file map, and a single-change batch whose basename
is not the metadata name is bound to exactly its content. -/
theorem remote_name_basename (store : GistStore) (gistId : String)
    (changes : List FileChange) (groupName now : String)
    (currentFiles : List (String × GistContent)) (ch : FileChange) (hch : ch ∈ changes) :
    ((assocFind (updateGistFiles store gistId changes groupName now currentFiles)
        (basename ch.path)).isSome = true)
  ∧ (∀ c2 : FileChange, changes = [c2] → basename c2.path ≠ metadataFileName groupName →
      assocFind (updateGistFiles store gistId changes groupName now currentFiles)
        (basename c2.path) = some (GistContent.text c2.content)) := by
  constructor
  · simp only [updateGistFiles]
    apply carryFold_mono
    exact changesFold_isSome changes ch hch _
  · intro c2 hc2 hnm
    subst hc2
    simp only [updateGistFiles]
    apply carryFold_preserves
    rw [List.foldl_cons, List.foldl_nil, assocFind_assocSet_self]

/-- Witness for C3 amended: the spec scenario change lands under x.txt with
its content. -/
theorem remote_name_basename_witness :
    (({ path := "/tmp/d/x.txt", content := "hello" } : FileChange) ∈
        [({ path := "/tmp/d/x.txt", content := "hello" } : FileChange)])
  ∧ assocFind (updateGistFiles storeC3 "g1" [{ path := "/tmp/d/x.txt", content := "hello" }]
      "docs" "t1" filesC3) (basename "/tmp/d/x.txt") = some (GistContent.text "hello") :=
  ⟨by decide,
   (remote_name_basename storeC3 "g1" [{ path := "/tmp/d/x.txt", content := "hello" }]
      "docs" "t1" filesC3 { path := "/tmp/d/x.txt", content := "hello" } (by decide)).2
     { path := "/tmp/d/x.txt", content := "hello" } rfl (by decide)⟩

/-- The per-file fold of createGist leaves keys untouched that no declared
file basename maps to. -/
theorem createFold_preserves (fs : FileSystem) (key : String) :
    ∀ (ps : List String), (∀ q ∈ ps, basename q ≠ key) →
    ∀ acc : List (String × GistContent),
      assocFind (ps.foldl (fun acc p => match fs.readFile p with
          | some c => assocSet acc (basename p) (GistContent.text c)
          | none => acc) acc) key = assocFind acc key
  | [], _, _ => rfl
  | p :: rest, hb, acc => by
    rw [List.foldl_cons,
      createFold_preserves fs key rest (fun q hq => hb q (List.mem_cons_of_mem p hq)) _]
    cases hr : fs.readFile p with
    | none => rfl
    | some c =>
      exact assocFind_assocSet_ne acc (basename p) (GistContent.text c) key
        (Ne.symm (hb p (List.mem_cons_self p rest)))

/-- The per-file fold of createGist keeps every present key present. -/
theorem createFold_mono (fs : FileSystem) (key : String) :
    ∀ (ps : List String) (acc : List (String × GistContent)),
      (assocFind acc key).isSome = true →
      (assocFind (ps.foldl (fun acc p => match fs.readFile p with
          | some c => assocSet acc (basename p) (GistContent.text c)
          | none => acc) acc) key).isSome = true
  | [], _, h => h
  | p :: rest, acc, h => by
    rw [List.foldl_cons]
    apply createFold_mono fs key rest
    cases hr : fs.readFile p with
    | none => exact h
    | some c => exact assocFind_assocSet_isSome acc (basename p) (GistContent.text c) key h

/-- After the per-file fold, every readable declared file has its basename
as a present key. -/
theorem createFold_isSome (fs : FileSystem) :
    ∀ (ps : List String) (p : String), p ∈ ps → ∀ c, fs.readFile p = some c →
    ∀ acc : List (String × GistContent),
      (assocFind (ps.foldl (fun acc p => match fs.readFile p with
          | some c => assocSet acc (basename p) (GistContent.text c)
          | none => acc) acc) (basename p)).isSome = true
  | [], p, hp, _, _, _ => absurd hp (List.not_mem_nil p)
  | q :: rest, p, hp, c, hc, acc => by
    rw [List.foldl_cons]
    rcases List.mem_cons.mp hp with h1 | h1
    · subst h1
      apply createFold_mono fs (basename p) rest
      rw [hc, assocFind_assocSet_self]
      rfl
    · exact createFold_isSome fs rest p h1 c hc _

/-- Every binding produced by the per-file fold is an initial binding or is
keyed by the basename of one visited declared file. -/
theorem createFold_mem (fs : FileSystem) :
    ∀ (ps : List String) (acc : List (String × GistContent)) (e : String × GistContent),
      e ∈ ps.foldl (fun acc p => match fs.readFile p with
          | some c => assocSet acc (basename p) (GistContent.text c)
          | none => acc) acc →
      e ∈ acc ∨ ∃ q ∈ ps, e.1 = basename q
  | [], _, _, h => Or.inl h
  | p :: rest, acc, e, h => by
    rw [List.foldl_cons] at h
    rcases createFold_mem fs rest _ e h with h1 | ⟨q, hq, hqe⟩
    · cases hr : fs.readFile p with
      | none =>
        rw [hr] at h1
        exact Or.inl h1
      | some c =>
        rw [hr] at h1
        rcases mem_assocSet acc (basename p) (GistContent.text c) e h1 with h2 | h2
        · exact Or.inl h2
        · exact Or.inr ⟨p, List.mem_cons_self p rest, by rw [h2]⟩
    · exact Or.inr ⟨q, List.mem_cons_of_mem p hq, hqe⟩

/-- The gist value written for a fresh id is the one found right after. -/
theorem findGist_setGist_self (st : GistStore) (id : String) (g : Gist) :
    (st.setGist id g).findGist id = some g := by
  simp [GistStore.setGist, GistStore.findGist, List.find?_cons_of_pos]

/-- C4 counterexample: for a group declaring folder /tmp/d, creating the
document and fetching its metadata yields no watchedFolders field at all
(and watchedFiles lists only the declared files), so the fetched metadata
does not equal the declared folders list. -/
theorem create_roundtrip_cex :
    getGistMetadata (createGist fsC4 "t0" "id1" ⟨[]⟩ gC4).1 "id1" "grp"
      = some ⟨"t0", "1.0.0", ["/tmp/a.txt"], none⟩
  ∧ gC4.folders = some ["/tmp/d"]
  ∧ (⟨"t0", "1.0.0", ["/tmp/a.txt"], none⟩ : GistMetadata).watchedFolders ≠ gC4.folders := by
  decide

/-- C4 amended: creating a document and then immediately fetching its
metadata yields watchedFiles equal to the declared files list and version
equal to the tool version string, while watchedFolders is absent (none)
rather than the declared folders list; the declared files must not collide
with the metadata file name for the record to survive. -/
theorem create_roundtrip (fs : FileSystem) (now newId : String) (store : GistStore)
    (g : FileGroup) (hb : ∀ q ∈ g.files, basename q ≠ metadataFileName g.name) :
    getGistMetadata (createGist fs now newId store g).1 newId g.name
      = some { uploadDate := now, version := toolVersion,
               watchedFiles := g.files, watchedFolders := none } := by
  have h1 : assocFind (createGistFiles fs now g) (metadataFileName g.name)
      = some (GistContent.meta
          { uploadDate := now, version := toolVersion,
            watchedFiles := g.files, watchedFolders := none }) := by
    unfold createGistFiles
    rw [createFold_preserves fs (metadataFileName g.name) g.files hb _]
    simp [createMetadataFile, assocFind_cons]
  unfold createGist getGistMetadata
  simp only [findGist_setGist_self, h1, decodeMetadata]

/-- Witness for C4 amended: concrete round-trip through the remote store. -/
theorem create_roundtrip_witness :
    (∀ q ∈ gC4.files, basename q ≠ metadataFileName gC4.name)
  ∧ getGistMetadata (createGist fsC4 "t0" "id1" ⟨[]⟩ gC4).1 "id1" gC4.name
      = some { uploadDate := "t0", version := toolVersion,
               watchedFiles := gC4.files, watchedFolders := none } :=
  ⟨by decide, create_roundtrip fsC4 "t0" "id1" ⟨[]⟩ gC4 (by decide)⟩

/-- C5 counterexample: a group declaring only folder /tmp/d, whose file
x.txt is enumerated by detection, uploads nothing but the single metadata
file at creation — no per-enumerated-path file and no separate marker file. -/
theorem createGist_folders_cex :
    (createGistFiles fsC4 "t0" gC5).map (fun e => e.1) = ["#g5"]
  ∧ enumeratePaths fsC4 gC5 = ["/tmp/d/x.txt"]
  ∧ fsC4.readFile "/tmp/d/x.txt" = some "hi"
  ∧ assocFind (createGistFiles fsC4 "t0" gC5) (basename "/tmp/d/x.txt") = none := by decide

/-- C5 amended: the file set uploaded at creation is the metadata file named
by the group (the only special file) plus one remote file per declared,
readable file path under its basename; declared folders are never consulted,
so no folder-derived path contributes a file. -/
theorem createGist_fileset (fs : FileSystem) (now : String) (g : FileGroup)
    (hb : ∀ q ∈ g.files, basename q ≠ metadataFileName g.name) :
    assocFind (createGistFiles fs now g) (metadataFileName g.name)
      = some (GistContent.meta
          { uploadDate := now, version := toolVersion,
            watchedFiles := g.files, watchedFolders := none })
  ∧ (∀ p ∈ g.files, ∀ c, fs.readFile p = some c →
      (assocFind (createGistFiles fs now g) (basename p)).isSome = true)
  ∧ (∀ e ∈ createGistFiles fs now g,
      e.1 = metadataFileName g.name ∨ ∃ q ∈ g.files, e.1 = basename q) := by
  refine ⟨?_, ?_, ?_⟩
  · unfold createGistFiles
    rw [createFold_preserves fs (metadataFileName g.name) g.files hb _]
    simp [createMetadataFile, assocFind_cons]
  · intro p hp c hc
    unfold createGistFiles
    exact createFold_isSome fs g.files p hp c hc _
  · intro e he
    unfold createGistFiles at he
    rcases createFold_mem fs g.files _ e he with h1 | h1
    · simp [createMetadataFile] at h1
      exact Or.inl (by rw [h1])
    · exact Or.inr h1

/-- Witness for C5 amended: concrete creation where the declared file lands
under its basename and every uploaded name is accounted for. -/
theorem createGist_fileset_witness :
    (∀ q ∈ gC4.files, basename q ≠ metadataFileName gC4.name)
  ∧ (assocFind (createGistFiles fsC4 "t0" gC4) (basename "/tmp/a.txt")).isSome = true
  ∧ assocFind (createGistFiles fsC4 "t0" gC4) (metadataFileName gC4.name)
      = some (GistContent.meta
          { uploadDate := "t0", version := toolVersion,
            watchedFiles := gC4.files, watchedFolders := none }) :=
  ⟨by decide,
   (createGist_fileset fsC4 "t0" gC4 (by decide)).2.1 "/tmp/a.txt" (by decide) "hello"
     (by decide),
   (createGist_fileset fsC4 "t0" gC4 (by decide)).1⟩

/-- C6 counterexample: an interval tick on gC6 detects a change of file a
and pushes it successfully, yet the stale FileHash entry (whose fingerprint
no longer matches the current content) survives untouched and the
configuration is never saved — the persisted hash table is not updated. -/
theorem interval_tick_cex :
    statusOk (checkFileChanges fsC6 "t1" storeC6 cfgC6 gC6 statesC6).status = true
  ∧ 0 < (detectChangesSnapshot fsC6 gC6 statesC6).1.length
  ∧ (checkFileChanges fsC6 "t1" storeC6 cfgC6 gC6 statesC6).group.fileHashes
      = some [⟨"a", "h:old", "t0"⟩]
  ∧ (checkFileChanges fsC6 "t1" storeC6 cfgC6 gC6 statesC6).cfg = cfgC6
  ∧ calculateFileHash demoHash fsC6 "a" ≠ "h:old" := by decide

/-- C6 amended: every interval tick runs the snapshot-based detector and,
when it detects changes, pushes them through the Merge Engine; but it never
updates the persisted hash table — the group (hence group.fileHashes) and
the configuration are returned unchanged by every tick, whatever happens. -/
theorem interval_tick_no_persist (fs : FileSystem) (now : String) (store : GistStore)
    (cfg : Config) (g : FileGroup) (states : List (String × String)) :
    (checkFileChanges fs now store cfg g states).group = g
  ∧ (checkFileChanges fs now store cfg g states).cfg = cfg
  ∧ (checkFileChanges fs now store cfg g states).states = (detectChangesSnapshot fs g states).2
  ∧ ((detectChangesSnapshot fs g states).1 = [] →
      (checkFileChanges fs now store cfg g states).store = store)
  ∧ (∀ store1, updateGist store (g.gistId.getD "") (detectChangesSnapshot fs g states).1
        g.name now = Except.ok store1 →
      0 < (detectChangesSnapshot fs g states).1.length →
      (checkFileChanges fs now store cfg g states).store = store1) := by
  by_cases hlen : 0 < (detectChangesSnapshot fs g states).1.length
  · cases hu : updateGist store (g.gistId.getD "") (detectChangesSnapshot fs g states).1
        g.name now with
    | ok st1 =>
      have he : checkFileChanges fs now store cfg g states
          = ⟨st1, cfg, g, (detectChangesSnapshot fs g states).2, Except.ok ()⟩ := by
        simp only [checkFileChanges]
        rw [if_pos hlen, hu]
      rw [he]
      refine ⟨rfl, rfl, rfl, ?_, ?_⟩
      · intro h0
        rw [h0] at hlen
        simp at hlen
      · intro store1 hu1 _
        injection hu1
    | error e1 =>
      have he : checkFileChanges fs now store cfg g states
          = ⟨store, cfg, g, (detectChangesSnapshot fs g states).2, Except.error e1⟩ := by
        simp only [checkFileChanges]
        rw [if_pos hlen, hu]
      rw [he]
      refine ⟨rfl, rfl, rfl, fun _ => rfl, ?_⟩
      intro store1 hu1 _
      exact Except.noConfusion hu1
  · have he : checkFileChanges fs now store cfg g states
        = ⟨store, cfg, g, (detectChangesSnapshot fs g states).2, Except.ok ()⟩ := by
      simp only [checkFileChanges]
      rw [if_neg hlen]
    rw [he]
    exact ⟨rfl, rfl, rfl, fun _ => rfl, fun store1 _ hl => absurd hl hlen⟩

/-- Witness for C6 amended: the concrete tick of the counterexample leaves
group and configuration untouched while its push goes through. -/
theorem interval_tick_no_persist_witness :
    (0 < (detectChangesSnapshot fsC6 gC6 statesC6).1.length)
  ∧ (checkFileChanges fsC6 "t1" storeC6 cfgC6 gC6 statesC6).group = gC6
  ∧ (checkFileChanges fsC6 "t1" storeC6 cfgC6 gC6 statesC6).cfg = cfgC6
  ∧ (checkFileChanges fsC6 "t1" storeC6 cfgC6 gC6 statesC6).store
      = exceptOkD storeC6 (updateGist storeC6 (gC6.gistId.getD "")
          (detectChangesSnapshot fsC6 gC6 statesC6).1 gC6.name "t1") :=
  ⟨by decide,
   (interval_tick_no_persist fsC6 "t1" storeC6 cfgC6 gC6 statesC6).1,
   (interval_tick_no_persist fsC6 "t1" storeC6 cfgC6 gC6 statesC6).2.1,
   (interval_tick_no_persist fsC6 "t1" storeC6 cfgC6 gC6 statesC6).2.2.2.2 _ rfl (by decide)⟩

/-- A qualifying event replaces any pending timer with one for its path. -/
theorem debounceStep_change (hash : String → String) (fs : FileSystem) (now : String)
    (s : WatcherState) (p : String) :
    debounceStep hash fs now s (WatchEvent.change p) = { s with pending := some p } := rfl

/-- Running a nonempty burst of qualifying events arms exactly one timer,
for the last event, and changes nothing else. -/
theorem runWatch_changes_pending (hash : String → String) (fs : FileSystem) (now : String) :
    ∀ (ps : List String) (p : String) (s : WatcherState),
      runWatchEvents hash fs now s ((ps ++ [p]).map WatchEvent.change)
        = { s with pending := some p }
  | [], _, _ => rfl
  | q :: ps, p, s => by
    have h1 : runWatchEvents hash fs now s (((q :: ps) ++ [p]).map WatchEvent.change)
        = runWatchEvents hash fs now { s with pending := some q }
            ((ps ++ [p]).map WatchEvent.change) := rfl
    rw [h1, runWatch_changes_pending hash fs now ps p { s with pending := some q }]

/-- Splitting the trailing elapse off an event sequence. -/
theorem runWatchEvents_append_fire (hash : String → String) (fs : FileSystem) (now : String)
    (s : WatcherState) (evs : List WatchEvent) :
    runWatchEvents hash fs now s (evs ++ [WatchEvent.fire])
      = debounceStep hash fs now (runWatchEvents hash fs now s evs) WatchEvent.fire := by
  unfold runWatchEvents
  rw [List.foldl_append]
  rfl

/-- C7: debounce coalescing.  For any burst of qualifying events (at most
one pending timer existing throughout, each event replacing it) followed by
an uninterrupted elapse, exactly one remote update call is issued, carrying
only the most recently triggering path with its content read at fire time;
on success that path's FileHash entry is upserted with a fresh stamp and the
group persisted through the configuration collaborator, while on remote
failure group and configuration stay untouched. -/
theorem debounce_coalescing (hash : String → String) (fs : FileSystem) (now : String)
    (s : WatcherState) (ps : List String) (lastP c : String)
    (hread : fs.readFile lastP = some c) :
    ((runWatchEvents hash fs now s
        ((ps ++ [lastP]).map WatchEvent.change ++ [WatchEvent.fire])).calls
      = s.calls ++ [(s.group.gistId.getD "", [{ path := lastP, content := c }])])
  ∧ (runWatchEvents hash fs now s
      ((ps ++ [lastP]).map WatchEvent.change ++ [WatchEvent.fire])).pending = none
  ∧ (∀ store1, updateGist s.store (s.group.gistId.getD "")
        [{ path := lastP, content := c }] s.group.name now = Except.ok store1 →
      hash c ≠ "" →
      (runWatchEvents hash fs now s
          ((ps ++ [lastP]).map WatchEvent.change ++ [WatchEvent.fire])).group
        = { s.group with fileHashes := some (upsertFileHash (s.group.fileHashes.getD [])
            { path := lastP, hash := hash c, lastSync := now }) }
      ∧ (runWatchEvents hash fs now s
          ((ps ++ [lastP]).map WatchEvent.change ++ [WatchEvent.fire])).cfg
        = updateGroup s.cfg s.group.name
            { s.group with fileHashes := some (upsertFileHash (s.group.fileHashes.getD [])
              { path := lastP, hash := hash c, lastSync := now }) }
      ∧ (runWatchEvents hash fs now s
          ((ps ++ [lastP]).map WatchEvent.change ++ [WatchEvent.fire])).store = store1)
  ∧ (∀ e1, updateGist s.store (s.group.gistId.getD "")
        [{ path := lastP, content := c }] s.group.name now = Except.error e1 →
      (runWatchEvents hash fs now s
          ((ps ++ [lastP]).map WatchEvent.change ++ [WatchEvent.fire])).group = s.group
      ∧ (runWatchEvents hash fs now s
          ((ps ++ [lastP]).map WatchEvent.change ++ [WatchEvent.fire])).cfg = s.cfg
      ∧ (runWatchEvents hash fs now s
          ((ps ++ [lastP]).map WatchEvent.change ++ [WatchEvent.fire])).store = s.store) := by
  have hrun : runWatchEvents hash fs now s
      ((ps ++ [lastP]).map WatchEvent.change ++ [WatchEvent.fire])
      = { fireDebounce hash fs now { s with pending := some lastP } lastP with
          pending := none } := by
    rw [runWatchEvents_append_fire, runWatch_changes_pending]
    rfl
  have hch : calculateFileHash hash fs lastP = hash c := by
    simp [calculateFileHash, hread]
  cases hu : updateGist s.store (s.group.gistId.getD "") [{ path := lastP, content := c }]
      s.group.name now with
  | error e1 =>
    have hG : runWatchEvents hash fs now s
        ((ps ++ [lastP]).map WatchEvent.change ++ [WatchEvent.fire])
        = { pending := none, group := s.group, cfg := s.cfg, store := s.store,
            calls := s.calls ++
              [(s.group.gistId.getD "", [{ path := lastP, content := c }])] } := by
      rw [hrun]
      simp [fireDebounce, hread, hu]
    rw [hG]
    refine ⟨rfl, rfl, ?_, ?_⟩
    · intro store1 hu1 _
      exact Except.noConfusion hu1
    · intro e2 _
      exact ⟨rfl, rfl, rfl⟩
  | ok st1 =>
    by_cases hz : (hash c == "") = true
    · have hG : runWatchEvents hash fs now s
          ((ps ++ [lastP]).map WatchEvent.change ++ [WatchEvent.fire])
          = { pending := none, group := s.group, cfg := s.cfg, store := st1,
              calls := s.calls ++
                [(s.group.gistId.getD "", [{ path := lastP, content := c }])] } := by
        rw [hrun]
        simp [fireDebounce, hread, hu, hch, hz]
      rw [hG]
      refine ⟨rfl, rfl, ?_, ?_⟩
      · intro store1 hu1 hcne
        exact absurd (by simpa using hz) hcne
      · intro e1 hu1
        exact Except.noConfusion hu1
    · have hG : runWatchEvents hash fs now s
          ((ps ++ [lastP]).map WatchEvent.change ++ [WatchEvent.fire])
          = { pending := none,
              group := { s.group with fileHashes := some (upsertFileHash
                (s.group.fileHashes.getD [])
                { path := lastP, hash := hash c, lastSync := now }) },
              cfg := updateGroup s.cfg s.group.name
                { s.group with fileHashes := some (upsertFileHash
                  (s.group.fileHashes.getD [])
                  { path := lastP, hash := hash c, lastSync := now }) },
              store := st1,
              calls := s.calls ++
                [(s.group.gistId.getD "", [{ path := lastP, content := c }])] } := by
        rw [hrun]
        simp [fireDebounce, hread, hu, hch, hz]
      rw [hG]
      refine ⟨rfl, rfl, ?_, ?_⟩
      · intro store1 hu1 _
        injection hu1 with h2
        exact ⟨rfl, rfl, h2⟩
      · intro e1 hu1
        exact Except.noConfusion hu1

/-- Witness for C7: three rapid events on file a followed by the elapse
issue exactly one update call and upsert the entry of a. -/
theorem debounce_coalescing_witness :
    fsW7.readFile "a" = some "v3"
  ∧ demoHash "v3" ≠ ""
  ∧ (runWatchEvents demoHash fsW7 "t1" sW7
      ((["a", "a"] ++ ["a"]).map WatchEvent.change ++ [WatchEvent.fire])).calls
      = sW7.calls ++ [(sW7.group.gistId.getD "", [{ path := "a", content := "v3" }])]
  ∧ (runWatchEvents demoHash fsW7 "t1" sW7
      ((["a", "a"] ++ ["a"]).map WatchEvent.change ++ [WatchEvent.fire])).group
      = { sW7.group with fileHashes := some (upsertFileHash (sW7.group.fileHashes.getD [])
          { path := "a", hash := demoHash "v3", lastSync := "t1" }) } :=
  ⟨by decide, by decide,
   (debounce_coalescing demoHash fsW7 "t1" sW7 ["a", "a"] "a" "v3" (by decide)).1,
   ((debounce_coalescing demoHash fsW7 "t1" sW7 ["a", "a"] "a" "v3" (by decide)).2.2.1
      (exceptOkD sW7.store (updateGist sW7.store (sW7.group.gistId.getD "")
        [{ path := "a", content := "v3" }] sW7.group.name "t1")) rfl (by decide)).1⟩

end GistSync
